import Mathlib

/-!
Verification of the mergem reaction/metabolite mapping pipeline
(notebook mergem_reaction_mapping, section 2.2 "Functions for model mapping"
and section 3 "Mappings").

Shallow embedding: the cobra model objects that the notebook reads become
plain structures; the three Python functions become Lean functions; the
pandas DataFrame constructor and csv export become an explicit table value;
Python exceptions become an Except monad.
-/

/-- A metabolite as read by the notebook: an identifier and a compartment
tag (only the fields the mapping code touches). -/
structure Metabolite where
  id : String
  compartment : String
  deriving DecidableEq

/-- A reaction as read by the notebook: an identifier, the participating
metabolites, and the boundary flag. -/
structure Reaction where
  id : String
  metabolites : List Metabolite
  boundary : Bool
  deriving DecidableEq

/-- A model: ordered reaction and metabolite lists, as iterated by
model.reactions and model.metabolites in the notebook. -/
structure Model where
  reactions : List Reaction
  metabolites : List Metabolite
  deriving DecidableEq

/-- The function is_transport from the notebook:
compartments = the set of compartments of the metabolites of the reaction;
return 1 when more than one distinct compartment, else 1 when the boundary
flag is set, else 0. The Python set comprehension is embedded as dedup of
the compartment list, whose length is the number of distinct compartments. -/
def is_transport (reaction : Reaction) : Nat :=
  let compartments := (reaction.metabolites.map (fun met => met.compartment)).dedup
  if compartments.length > 1 then 1
  else if reaction.boundary then 1
  else 0

/-- The separator characters of the core-id pattern: the regex in
extract_core_id stops the match at an underscore or a tilde. -/
def coreSep (c : Char) : Bool := c == '_' || c == '~'

/-- Leftmost match of the regex MNX followed by greedy non-separator
characters, on a character list: scan left to right; at the first position
whose next three characters are M, N, X, the match is those three
characters extended through the following run of non-separator characters;
no such position means no match. -/
def searchMNX : List Char → Option (List Char)
  | [] => none
  | c :: cs =>
    if (c :: cs).take 3 = ['M', 'N', 'X'] then
      some (['M', 'N', 'X'] ++ ((c :: cs).drop 3).takeWhile (fun d => !coreSep d))
    else searchMNX cs

/-- The function extract_core_id from the notebook: re.search of MNX followed by any
characters other than underscore and tilde; the matched substring when the
search succeeds, the original string otherwise. -/
def extract_core_id (s : String) : String :=
  match searchMNX s.data with
  | some m => String.mk m
  | none => s

/-- Python exceptions that the pipeline can raise: the mergem translation
call failing, and the pandas DataFrame constructor rejecting columns of
unequal length. -/
inductive PyError where
  | translationError : PyError
  | valueError : PyError
  deriving DecidableEq

/-- One row of the reaction mapping table rxn_df, column order as in the
notebook: Original ID, Raw MetaNetX ID, transport, Final ID. -/
structure RxnRow where
  originalId : String
  rawMetanetxId : String
  transport : Nat
  finalId : String
  deriving DecidableEq

/-- One row of the metabolite mapping table met_df, column order as in the
notebook: Original ID, Raw MetaNetX ID, Final ID. -/
structure MetRow where
  originalId : String
  rawMetanetxId : String
  finalId : String
  deriving DecidableEq

/-- A csv artifact written by to_csv: either a reaction table or a
metabolite table. -/
inductive Csv where
  | rxnTable : List RxnRow → Csv
  | metTable : List MetRow → Csv
  deriving DecidableEq

/-- Row-wise pairing of the four reaction columns, as pandas aligns the
columns of equal length into rows. -/
def rxnRows : List String → List String → List Nat → List String → List RxnRow
  | a :: as, b :: bs, c :: cs, d :: ds => ⟨a, b, c, d⟩ :: rxnRows as bs cs ds
  | _, _, _, _ => []

/-- Row-wise pairing of the three metabolite columns. -/
def metRows : List String → List String → List String → List MetRow
  | a :: as, b :: bs, c :: cs => ⟨a, b, c⟩ :: metRows as bs cs
  | _, _, _ => []

/-- The pd.DataFrame constructor on the four reaction columns: the rows when the columns
have equal length, a ValueError otherwise. -/
def mkRxnDf (c1 c2 : List String) (c3 : List Nat) (c4 : List String) :
    Except PyError (List RxnRow) :=
  if c1.length = c2.length ∧ c2.length = c3.length ∧ c3.length = c4.length then
    Except.ok (rxnRows c1 c2 c3 c4)
  else Except.error PyError.valueError

/-- The pd.DataFrame constructor on the three metabolite columns. -/
def mkMetDf (c1 c2 c3 : List String) : Except PyError (List MetRow) :=
  if c1.length = c2.length ∧ c2.length = c3.length then
    Except.ok (metRows c1 c2 c3)
  else Except.error PyError.valueError

/-- The Final ID column of the reaction table: the comprehension
[extract_core_id(rxn.id) if not is_transport(rxn) else 'Transport removed'
for rxn in mapped_model.reactions] from export_mergem_mapping (Python
treats the integer 0 as falsy, so the first branch is taken exactly when
is_transport returns 0). -/
def core_metanetx_rxn_ids_of (mapped_model : Model) : List String :=
  mapped_model.reactions.map (fun rxn =>
    if is_transport rxn = 0 then extract_core_id rxn.id else "Transport removed")

/-- The Final ID column of the metabolite table: the comprehension
[extract_core_id(met.id) for met in mapped_model.metabolites] from
export_mergem_mapping. -/
def core_metanetx_met_ids_of (mapped_model : Model) : List String :=
  mapped_model.metabolites.map (fun met => extract_core_id met.id)

/-- The function export_mergem_mapping from the notebook. The external mergem.translate
call is passed in as a function that either returns the mapped model or
raises; statements run in source order and an exception aborts the rest of
the function, which the Except monad mirrors. The value on success is the
list of files written by the two to_csv calls, in write order. -/
def export_mergem_mapping (translate : Model → Except PyError Model)
    (model : Model) (model_name : String) (output_mapping_path : String) :
    Except PyError (List (String × Csv)) := do
  let original_rxn_ids := model.reactions.map (fun rxn => rxn.id)
  let original_met_ids := model.metabolites.map (fun met => met.id)
  let mapped_model ← translate model
  let metanetx_rxn_ids := mapped_model.reactions.map (fun rxn => rxn.id)
  let transport_rxn_class := mapped_model.reactions.map is_transport
  let core_metanetx_rxn_ids := core_metanetx_rxn_ids_of mapped_model
  let metanetx_met_ids := mapped_model.metabolites.map (fun met => met.id)
  let core_metanetx_met_ids := core_metanetx_met_ids_of mapped_model
  let rxn_df ← mkRxnDf original_rxn_ids metanetx_rxn_ids transport_rxn_class
    core_metanetx_rxn_ids
  let met_df ← mkMetDf original_met_ids metanetx_met_ids core_metanetx_met_ids
  pure [(output_mapping_path ++ "/" ++ model_name ++ "_rxn_mergem_mapping.csv",
           Csv.rxnTable rxn_df),
        (output_mapping_path ++ "/" ++ model_name ++ "_met_mergem_mapping.csv",
           Csv.metTable met_df)]

/-- The files a run leaves on disk: the written files on success, nothing
when the function raised before reaching the to_csv calls (both writes are
the last statements, after translate and both DataFrame constructors). -/
def emittedFiles : Except PyError (List (String × Csv)) → List (String × Csv)
  | Except.ok ws => ws
  | Except.error _ => []

/-- The mapping cell of section 3 of the notebook: consecutive
export_mergem_mapping statements over a batch of (model, name) pairs. An
uncaught exception stops the cell, so the result is the files written by
the calls before the first failing one, paired with the error when one
occurred. -/
def runBatchCell (translate : Model → Except PyError Model) :
    List (Model × String) → String → List (String × Csv) × Option PyError
  | [], _ => ([], none)
  | (m, name) :: rest, out =>
    match export_mergem_mapping translate m name out with
    | Except.ok ws =>
      let r := runBatchCell translate rest out
      (ws ++ r.1, r.2)
    | Except.error e => ([], some e)

/-- The reaction table a successful run writes, in terms of the original
and the mapped model. -/
def rxnTableFor (model mapped : Model) : List RxnRow :=
  rxnRows (model.reactions.map (fun rxn => rxn.id))
    (mapped.reactions.map (fun rxn => rxn.id))
    (mapped.reactions.map is_transport)
    (core_metanetx_rxn_ids_of mapped)

/-- The metabolite table a successful run writes. -/
def metTableFor (model mapped : Model) : List MetRow :=
  metRows (model.metabolites.map (fun met => met.id))
    (mapped.metabolites.map (fun met => met.id))
    (core_metanetx_met_ids_of mapped)

/-- A translated model whose single reaction and single metabolite carry
the empty identifier. -/
def emptyIdModel : Model := ⟨[⟨"", [], false⟩], [⟨"", "c"⟩]⟩

/-- A small translated model with nonempty MetaNetX identifiers. -/
def mnxSampleModel : Model :=
  ⟨[⟨"MNXR7_c", [⟨"m1", "c"⟩], false⟩], [⟨"MNXM7_c", "c"⟩]⟩

/-- A small well-formed model used to witness the failure claims. -/
def sampleModelA : Model := ⟨[⟨"R1", [⟨"m1", "c"⟩], false⟩], [⟨"M1", "c"⟩]⟩

/-- A model the failing translator rejects (no reactions). -/
def badModel : Model := ⟨[], []⟩

/-- First model the failing translator accepts. -/
def goodModel1 : Model := ⟨[⟨"MNXR10_c", [⟨"m1", "c"⟩], false⟩], [⟨"MNXM10_c", "c"⟩]⟩

/-- Second model the failing translator accepts. -/
def goodModel2 : Model := ⟨[⟨"MNXR11_c", [⟨"m1", "c"⟩], false⟩], [⟨"MNXM11_c", "c"⟩]⟩

/-- A translator that raises on the reaction-free model and returns every
other model unchanged. -/
def translateFailOnEmpty : Model → Except PyError Model :=
  fun m => if m.reactions.length = 0 then Except.error PyError.translationError
    else Except.ok m

/-- A successful regex search yields the three prefix characters followed
by a run cut at the first separator. -/
lemma searchMNX_shape {l m : List Char} (h : searchMNX l = some m) :
    ∃ t : List Char, m = ['M', 'N', 'X'] ++ t.takeWhile (fun d => !coreSep d) := by
  induction l with
  | nil => simp [searchMNX] at h
  | cons c cs ih =>
    rw [searchMNX] at h
    split at h
    · exact ⟨(c :: cs).drop 3, by simpa using h.symm⟩
    · exact ih h

/-- The takeWhile function is idempotent. -/
lemma takeWhile_idem {α : Type} (p : α → Bool) (l : List α) :
    (l.takeWhile p).takeWhile p = l.takeWhile p := by
  induction l with
  | nil => simp
  | cons a t ih =>
    by_cases h : p a
    · simp [List.takeWhile_cons, h, ih]
    · simp [List.takeWhile_cons, h]

/-- When the pattern occurs nowhere in the list, the search fails. -/
lemma searchMNX_eq_none {l : List Char} (h : ¬ (['M', 'N', 'X'] <:+: l)) :
    searchMNX l = none := by
  induction l with
  | nil => rfl
  | cons c cs ih =>
    rw [searchMNX]
    split
    · rename_i hc
      exact absurd (List.IsPrefix.isInfix
        (List.prefix_iff_eq_take.mpr (by simpa using hc.symm))) h
    · exact ih (fun hi => h (hi.trans (List.suffix_cons c cs).isInfix))

/-- The leftmost-match equation: when the pattern does not occur before the
displayed occurrence, the search returns that occurrence extended through
the following non-separator run. -/
lemma searchMNX_append (pre rest : List Char)
    (h : ¬ (['M', 'N', 'X'] <:+: (pre ++ ['M', 'N']))) :
    searchMNX (pre ++ ['M', 'N', 'X'] ++ rest) =
      some (['M', 'N', 'X'] ++ rest.takeWhile (fun d => !coreSep d)) := by
  induction pre with
  | nil => simp [searchMNX]
  | cons p pre ih =>
    have hlen : (3 : Nat) ≤ (p :: pre).length + 2 := by
      simp [Nat.succ_le_succ, Nat.le_add_left]
    have htake : ((p :: pre) ++ ['M', 'N', 'X'] ++ rest).take 3 =
        ((p :: pre) ++ ['M', 'N']).take 3 := by
      have h1 : ((p :: pre) ++ ['M', 'N', 'X'] ++ rest).take ((p :: pre).length + 2) =
          (p :: pre) ++ ['M', 'N'] := by
        rw [List.append_assoc, List.take_append]
        rfl
      calc ((p :: pre) ++ ['M', 'N', 'X'] ++ rest).take 3
          = (((p :: pre) ++ ['M', 'N', 'X'] ++ rest).take ((p :: pre).length + 2)).take 3 := by
            rw [List.take_take, Nat.min_eq_left hlen]
        _ = ((p :: pre) ++ ['M', 'N']).take 3 := by rw [h1]
    have hnot : ¬ ((p :: pre) ++ ['M', 'N', 'X'] ++ rest).take 3 = ['M', 'N', 'X'] := by
      intro hc
      rw [htake] at hc
      exact h (List.IsPrefix.isInfix (List.prefix_iff_eq_take.mpr (by simpa using hc.symm)))
    have hstep : searchMNX ((p :: pre) ++ ['M', 'N', 'X'] ++ rest) =
        searchMNX (pre ++ ['M', 'N', 'X'] ++ rest) := by
      rw [show (p :: pre) ++ ['M', 'N', 'X'] ++ rest =
          p :: (pre ++ ['M', 'N', 'X'] ++ rest) by simp]
      rw [searchMNX]
      rw [if_neg (by simpa using hnot)]
    rw [hstep]
    exact ih (fun hi => h (hi.trans (List.suffix_cons p (pre ++ ['M', 'N'])).isInfix))

/-- The canonicalizer never maps a nonempty string to the empty string. -/
lemma extract_core_id_ne_empty {s : String} (h : s ≠ "") : extract_core_id s ≠ "" := by
  rw [extract_core_id]
  cases hm : searchMNX s.data with
  | none => exact h
  | some m =>
    obtain ⟨t, ht⟩ := searchMNX_shape hm
    intro hc
    have : m = [] := by
      have := congrArg String.data hc
      simpa using this
    simp [ht] at this

/-- More than one distinct element in a list is the same as two members
that differ. -/
lemma one_lt_dedup_length {α : Type} [DecidableEq α] (l : List α) :
    1 < l.dedup.length ↔ ∃ a ∈ l, ∃ b ∈ l, a ≠ b := by
  constructor
  · intro h
    match hd : l.dedup with
    | [] => rw [hd] at h; simp at h
    | [x] => rw [hd] at h; simp at h
    | x :: y :: t =>
      have hx : x ∈ l := by
        rw [← List.mem_dedup, hd]; simp
      have hy : y ∈ l := by
        rw [← List.mem_dedup, hd]; simp
      have hnd := l.nodup_dedup
      rw [hd] at hnd
      exact ⟨x, hx, y, hy, by simpa using (List.nodup_cons.mp hnd).1 ∘ (by simp [·])⟩
  · rintro ⟨a, ha, b, hb, hab⟩
    match hd : l.dedup with
    | [] =>
      have := List.mem_dedup.mpr ha
      rw [hd] at this; simp at this
    | [x] =>
      have h1 := List.mem_dedup.mpr ha
      have h2 := List.mem_dedup.mpr hb
      rw [hd] at h1 h2
      simp at h1 h2
      exact absurd (h1.trans h2.symm) hab
    | x :: y :: t => simp [hd]

/-- The classifier answers 1 exactly when the metabolites span more than one
distinct compartment or the boundary flag is set. -/
lemma is_transport_eq_one_iff (r : Reaction) :
    is_transport r = 1 ↔
      (1 < ((r.metabolites.map (fun met => met.compartment)).dedup).length ∨
        r.boundary = true) := by
  simp only [is_transport]
  by_cases h1 : 1 < ((r.metabolites.map (fun met => met.compartment)).dedup).length
  · simp [h1]
  · by_cases h2 : r.boundary
    · simp [h1, h2]
    · simp [h1, h2]

/-- The classifier only returns 0 or 1. -/
lemma is_transport_eq_zero_or_one (r : Reaction) :
    is_transport r = 0 ∨ is_transport r = 1 := by
  simp only [is_transport]
  by_cases h1 : 1 < ((r.metabolites.map (fun met => met.compartment)).dedup).length
  · simp [h1]
  · by_cases h2 : r.boundary
    · simp [h1, h2]
    · simp [h1, h2]

/-- Spanning more than one distinct compartment is the same as having two
participating metabolites whose compartments differ. -/
lemma spans_iff (r : Reaction) :
    1 < ((r.metabolites.map (fun met => met.compartment)).dedup).length ↔
      ∃ m1 ∈ r.metabolites, ∃ m2 ∈ r.metabolites,
        m1.compartment ≠ m2.compartment := by
  rw [one_lt_dedup_length]
  constructor
  · rintro ⟨a, ha, b, hb, hab⟩
    obtain ⟨m1, hm1, rfl⟩ := List.mem_map.mp ha
    obtain ⟨m2, hm2, rfl⟩ := List.mem_map.mp hb
    exact ⟨m1, hm1, m2, hm2, hab⟩
  · rintro ⟨m1, hm1, m2, hm2, h12⟩
    exact ⟨m1.compartment, List.mem_map_of_mem _ hm1,
      m2.compartment, List.mem_map_of_mem _ hm2, h12⟩

/-- The row-wise pairing of four equal-length columns has the column length
and projects back to each column. -/
lemma rxnRows_spec (c1 : List String) :
    ∀ (c2 : List String) (c3 : List Nat) (c4 : List String),
      c1.length = c2.length → c2.length = c3.length → c3.length = c4.length →
      ((rxnRows c1 c2 c3 c4).length = c1.length ∧
       (rxnRows c1 c2 c3 c4).map (fun row => row.originalId) = c1 ∧
       (rxnRows c1 c2 c3 c4).map (fun row => row.rawMetanetxId) = c2 ∧
       (rxnRows c1 c2 c3 c4).map (fun row => row.transport) = c3 ∧
       (rxnRows c1 c2 c3 c4).map (fun row => row.finalId) = c4) := by
  induction c1 with
  | nil =>
    intro c2 c3 c4 h1 h2 h3
    obtain rfl : c2 = [] := List.length_eq_zero.mp h1.symm
    obtain rfl : c3 = [] := List.length_eq_zero.mp h2.symm
    obtain rfl : c4 = [] := List.length_eq_zero.mp h3.symm
    simp [rxnRows]
  | cons a as ih =>
    intro c2 c3 c4 h1 h2 h3
    rcases c2 with _ | ⟨b, bs⟩
    · simp at h1
    rcases c3 with _ | ⟨c, cs⟩
    · simp at h2
    rcases c4 with _ | ⟨d, ds⟩
    · simp at h3
    obtain ⟨l1, m1, m2, m3, m4⟩ :=
      ih bs cs ds (by simpa using h1) (by simpa using h2) (by simpa using h3)
    refine ⟨?_, ?_, ?_, ?_, ?_⟩ <;> simp [rxnRows, l1, m1, m2, m3, m4]

/-- The row-wise pairing of three equal-length columns has the column
length and projects back to each column. -/
lemma metRows_spec (c1 : List String) :
    ∀ (c2 c3 : List String),
      c1.length = c2.length → c2.length = c3.length →
      ((metRows c1 c2 c3).length = c1.length ∧
       (metRows c1 c2 c3).map (fun row => row.originalId) = c1 ∧
       (metRows c1 c2 c3).map (fun row => row.rawMetanetxId) = c2 ∧
       (metRows c1 c2 c3).map (fun row => row.finalId) = c3) := by
  induction c1 with
  | nil =>
    intro c2 c3 h1 h2
    obtain rfl : c2 = [] := List.length_eq_zero.mp h1.symm
    obtain rfl : c3 = [] := List.length_eq_zero.mp h2.symm
    simp [metRows]
  | cons a as ih =>
    intro c2 c3 h1 h2
    rcases c2 with _ | ⟨b, bs⟩
    · simp at h1
    rcases c3 with _ | ⟨c, cs⟩
    · simp at h2
    obtain ⟨l1, m1, m2, m3⟩ := ih bs cs (by simpa using h1) (by simpa using h2)
    refine ⟨?_, ?_, ?_, ?_⟩ <;> simp [metRows, l1, m1, m2, m3]

/-- Claim C2: the canonicalizer returns the substring beginning at the first
occurrence of the prefix MNX and extending through the following characters
that are not a tilde or an underscore; a string with no occurrence of the
prefix is returned verbatim; the three documented examples hold and the
empty string has a defined output. -/
theorem C2_extract_core_id_spec :
    (∀ pre rest : List Char, ¬ (['M', 'N', 'X'] <:+: (pre ++ ['M', 'N'])) →
      extract_core_id (String.mk (pre ++ ['M', 'N', 'X'] ++ rest)) =
        String.mk (['M', 'N', 'X'] ++ rest.takeWhile (fun d => !coreSep d))) ∧
    (∀ s : String, ¬ (['M', 'N', 'X'] <:+: s.data) → extract_core_id s = s) ∧
    extract_core_id "MNXR12345_c" = "MNXR12345" ∧
    extract_core_id "MNXR999~extra" = "MNXR999" ∧
    extract_core_id "rxn001" = "rxn001" ∧
    extract_core_id "" = "" := by
  refine ⟨?_, ?_, by decide, by decide, by decide, by decide⟩
  · intro pre rest h
    rw [extract_core_id]
    rw [show (String.mk (pre ++ ['M', 'N', 'X'] ++ rest)).data =
        pre ++ ['M', 'N', 'X'] ++ rest from rfl]
    rw [searchMNX_append pre rest h]
  · intro s h
    rw [extract_core_id, searchMNX_eq_none h]

/-- Witness for C2 at a concrete input: the prefix occurs first at index 2
of a_MNXR1_c and the match stops at the underscore before the compartment
suffix. -/
theorem C2_extract_core_id_spec_witness : extract_core_id "a_MNXR1_c" = "MNXR1" := by
  have h := C2_extract_core_id_spec.1 ['a', '_'] ['R', '1', '_', 'c'] (by decide)
  have e1 : String.mk (['a', '_'] ++ ['M', 'N', 'X'] ++ ['R', '1', '_', 'c']) =
      "a_MNXR1_c" := by decide
  have e2 : String.mk (['M', 'N', 'X'] ++
      List.takeWhile (fun d => !coreSep d) ['R', '1', '_', 'c']) = "MNXR1" := by decide
  rw [e1, e2] at h
  exact h

/-- Claim C4: the canonicalizer is idempotent. -/
theorem C4_extract_core_id_idem (s : String) :
    extract_core_id (extract_core_id s) = extract_core_id s := by
  cases hm : searchMNX s.data with
  | none =>
    have h1 : extract_core_id s = s := by rw [extract_core_id, hm]
    rw [h1]
    exact h1
  | some m =>
    have h1 : extract_core_id s = String.mk m := by rw [extract_core_id, hm]
    obtain ⟨t, ht⟩ := searchMNX_shape hm
    have h2 : searchMNX m = some m := by
      rw [ht]
      simp [searchMNX, takeWhile_idem]
    have h3 : extract_core_id (String.mk m) = String.mk m := by
      rw [extract_core_id]
      rw [show (String.mk m).data = m from rfl, h2]
    rw [h1, h3]

/-- Claim C3: the transport classifier answers 1 exactly when the
metabolites touch more than one distinct compartment or the boundary flag
is set, and 0 exactly otherwise; a two-compartment reaction is transport
with either boundary value, a single-compartment boundary reaction is
transport, and a single-compartment non-boundary reaction is not. -/
theorem C3_is_transport_spec :
    (∀ r : Reaction,
      (is_transport r = 1 ↔
        ((∃ m1 ∈ r.metabolites, ∃ m2 ∈ r.metabolites,
            m1.compartment ≠ m2.compartment) ∨ r.boundary = true)) ∧
      (is_transport r = 0 ↔
        ¬ ((∃ m1 ∈ r.metabolites, ∃ m2 ∈ r.metabolites,
            m1.compartment ≠ m2.compartment) ∨ r.boundary = true))) ∧
    is_transport ⟨"t1", [⟨"m1", "c"⟩, ⟨"m2", "e"⟩], false⟩ = 1 ∧
    is_transport ⟨"t2", [⟨"m1", "c"⟩, ⟨"m2", "e"⟩], true⟩ = 1 ∧
    is_transport ⟨"t3", [⟨"m1", "c"⟩], true⟩ = 1 ∧
    is_transport ⟨"t4", [⟨"m1", "c"⟩], false⟩ = 0 := by
  refine ⟨?_, by decide, by decide, by decide, by decide⟩
  intro r
  have hone : is_transport r = 1 ↔
      ((∃ m1 ∈ r.metabolites, ∃ m2 ∈ r.metabolites,
          m1.compartment ≠ m2.compartment) ∨ r.boundary = true) := by
    rw [is_transport_eq_one_iff, spans_iff]
  refine ⟨hone, ?_⟩
  constructor
  · intro h0 hc
    have h1 := hone.mpr hc
    rw [h0] at h1
    exact absurd h1 (by decide)
  · intro hc
    rcases is_transport_eq_zero_or_one r with h | h
    · exact h
    · exact absurd (hone.mp h) hc

/-- Claim C1: in the reaction Final ID column, a reaction classified
transport gets the sentinel and a non-transport reaction gets the
canonicalized translated identifier; two non-transport reactions with
translated identifiers MNXR1_c and MNXR1_e both get MNXR1. -/
theorem C1_reaction_final_ids :
    (∀ M : Model, List.Forall₂
      (fun rxn fid =>
        (is_transport rxn = 1 → fid = "Transport removed") ∧
        (is_transport rxn = 0 → fid = extract_core_id rxn.id))
      M.reactions (core_metanetx_rxn_ids_of M)) ∧
    core_metanetx_rxn_ids_of
      ⟨[⟨"MNXR1_c", [⟨"m1", "c"⟩], false⟩, ⟨"MNXR1_e", [⟨"m2", "e"⟩], false⟩], []⟩ =
      ["MNXR1", "MNXR1"] := by
  constructor
  · intro M
    obtain ⟨rs, ms⟩ := M
    simp only [core_metanetx_rxn_ids_of]
    induction rs with
    | nil => exact List.Forall₂.nil
    | cons r t ih =>
      refine List.Forall₂.cons ⟨?_, ?_⟩ ih
      · intro h1
        simp [h1]
      · intro h0
        simp [h0]
  · decide

/-- Claim C5: in the metabolite Final ID column, every metabolite gets the
canonicalized translated identifier, with no transport branch; MNXM5_c and
MNXM5_e both get MNXM5. -/
theorem C5_metabolite_final_ids :
    (∀ M : Model, List.Forall₂ (fun met fid => fid = extract_core_id met.id)
      M.metabolites (core_metanetx_met_ids_of M)) ∧
    core_metanetx_met_ids_of ⟨[], [⟨"MNXM5_c", "c"⟩, ⟨"MNXM5_e", "e"⟩]⟩ =
      ["MNXM5", "MNXM5"] := by
  constructor
  · intro M
    obtain ⟨rs, ms⟩ := M
    simp only [core_metanetx_met_ids_of]
    induction ms with
    | nil => exact List.Forall₂.nil
    | cons m t ih => exact List.Forall₂.cons rfl ih
  · decide

/-- Claim C10: for a reaction with no metabolites the set of touched
compartments is empty, so the classification is decided by the boundary
flag alone. -/
theorem C10_no_metabolites (r : Reaction) (h : r.metabolites = []) :
    (is_transport r = 1 ↔ r.boundary = true) ∧
    (is_transport r = 0 ↔ r.boundary = false) := by
  cases hb : r.boundary with
  | false => simp [is_transport, h, hb]
  | true => simp [is_transport, h, hb]

/-- Witness for C10: a metabolite-free reaction with the boundary flag set
is classified transport. -/
theorem C10_no_metabolites_witness : is_transport ⟨"EX1", [], true⟩ = 1 :=
  (C10_no_metabolites ⟨"EX1", [], true⟩ rfl).1.mpr rfl

/-- Counterexample to claim C7 as stated: on a translated model whose
identifiers are the empty string, the pipeline produces a reaction record
and a metabolite record whose Final ID is the empty string. -/
theorem C7_empty_final_id_counterexample :
    export_mergem_mapping (fun m => Except.ok m) emptyIdModel "mod" "out" =
      Except.ok
        [("out/mod_rxn_mergem_mapping.csv", Csv.rxnTable [⟨"", "", 0, ""⟩]),
         ("out/mod_met_mergem_mapping.csv", Csv.metTable [⟨"", "", ""⟩])] := by
  rfl

/-- Claim C7 amended: every reaction Final ID is the sentinel or a
canonicalized translated identifier and every metabolite Final ID is a
canonicalized translated identifier; when the translated identifiers are
nonempty, no Final ID is empty. -/
theorem C7_final_id_invariant (M : Model)
    (hr : ∀ r ∈ M.reactions, r.id ≠ "")
    (hm : ∀ m ∈ M.metabolites, m.id ≠ "") :
    (∀ fid ∈ core_metanetx_rxn_ids_of M,
      (fid = "Transport removed" ∨ ∃ r ∈ M.reactions, fid = extract_core_id r.id) ∧
        fid ≠ "") ∧
    (∀ fid ∈ core_metanetx_met_ids_of M,
      (∃ m ∈ M.metabolites, fid = extract_core_id m.id) ∧ fid ≠ "") := by
  constructor
  · intro fid hfid
    rw [core_metanetx_rxn_ids_of] at hfid
    obtain ⟨r, hrmem, rfl⟩ := List.mem_map.mp hfid
    by_cases h0 : is_transport r = 0
    · rw [if_pos h0]
      exact ⟨Or.inr ⟨r, hrmem, rfl⟩, extract_core_id_ne_empty (hr r hrmem)⟩
    · rw [if_neg h0]
      exact ⟨Or.inl rfl, by decide⟩
  · intro fid hfid
    rw [core_metanetx_met_ids_of] at hfid
    obtain ⟨m, hmmem, rfl⟩ := List.mem_map.mp hfid
    exact ⟨⟨m, hmmem, rfl⟩, extract_core_id_ne_empty (hm m hmmem)⟩

/-- Witness for amended C7: the Final ID produced for the reaction of the
sample model is not empty. -/
theorem C7_final_id_invariant_witness : ("MNXR7" : String) ≠ "" :=
  ((C7_final_id_invariant mnxSampleModel (by decide) (by decide)).1
    "MNXR7" (by decide)).2

/-- Claim C8: on a successful run whose translated model keeps the original
reaction and metabolite counts, the run writes one reaction table and one
metabolite table, the tables have exactly one row per reaction and per
metabolite of the translated model, and each column lists the model data in
its native order. -/
theorem C8_export_shape (translate : Model → Except PyError Model)
    (model mapped : Model) (name out : String)
    (ht : translate model = Except.ok mapped)
    (hr : mapped.reactions.length = model.reactions.length)
    (hm : mapped.metabolites.length = model.metabolites.length) :
    export_mergem_mapping translate model name out =
      Except.ok
        [(out ++ "/" ++ name ++ "_rxn_mergem_mapping.csv",
            Csv.rxnTable (rxnTableFor model mapped)),
         (out ++ "/" ++ name ++ "_met_mergem_mapping.csv",
            Csv.metTable (metTableFor model mapped))] ∧
    (rxnTableFor model mapped).length = mapped.reactions.length ∧
    (metTableFor model mapped).length = mapped.metabolites.length ∧
    (rxnTableFor model mapped).map (fun row => row.originalId) =
      model.reactions.map (fun rxn => rxn.id) ∧
    (rxnTableFor model mapped).map (fun row => row.rawMetanetxId) =
      mapped.reactions.map (fun rxn => rxn.id) ∧
    (rxnTableFor model mapped).map (fun row => row.transport) =
      mapped.reactions.map is_transport ∧
    (rxnTableFor model mapped).map (fun row => row.finalId) =
      core_metanetx_rxn_ids_of mapped ∧
    (metTableFor model mapped).map (fun row => row.originalId) =
      model.metabolites.map (fun met => met.id) ∧
    (metTableFor model mapped).map (fun row => row.rawMetanetxId) =
      mapped.metabolites.map (fun met => met.id) ∧
    (metTableFor model mapped).map (fun row => row.finalId) =
      core_metanetx_met_ids_of mapped := by
  have hc1 : (model.reactions.map (fun rxn => rxn.id)).length =
      (mapped.reactions.map (fun rxn => rxn.id)).length := by simp [hr]
  have hc2 : (mapped.reactions.map (fun rxn => rxn.id)).length =
      (mapped.reactions.map is_transport).length := by simp
  have hc3 : (mapped.reactions.map is_transport).length =
      (core_metanetx_rxn_ids_of mapped).length := by
    simp [core_metanetx_rxn_ids_of]
  have hd1 : (model.metabolites.map (fun met => met.id)).length =
      (mapped.metabolites.map (fun met => met.id)).length := by simp [hm]
  have hd2 : (mapped.metabolites.map (fun met => met.id)).length =
      (core_metanetx_met_ids_of mapped).length := by
    simp [core_metanetx_met_ids_of]
  obtain ⟨rl, r1, r2, r3, r4⟩ := rxnRows_spec _ _ _ _ hc1 hc2 hc3
  obtain ⟨ml, m1, m2, m3⟩ := metRows_spec _ _ _ hd1 hd2
  have hdf1 : mkRxnDf (model.reactions.map (fun rxn => rxn.id))
      (mapped.reactions.map (fun rxn => rxn.id))
      (mapped.reactions.map is_transport)
      (core_metanetx_rxn_ids_of mapped) =
      Except.ok (rxnTableFor model mapped) := by
    rw [mkRxnDf, if_pos ⟨hc1, hc2, hc3⟩]
    rfl
  have hdf2 : mkMetDf (model.metabolites.map (fun met => met.id))
      (mapped.metabolites.map (fun met => met.id))
      (core_metanetx_met_ids_of mapped) =
      Except.ok (metTableFor model mapped) := by
    rw [mkMetDf, if_pos ⟨hd1, hd2⟩]
    rfl
  refine ⟨?_, ?_, ?_, r1, r2, r3, r4, m1, m2, m3⟩
  · rw [export_mergem_mapping, ht]
    show (mkRxnDf _ _ _ _).bind _ = _
    rw [hdf1]
    show (mkMetDf _ _ _).bind _ = _
    rw [hdf2]
    rfl
  · unfold rxnTableFor
    rw [rl]
    simp [hr]
  · unfold metTableFor
    rw [ml]
    simp [hm]

/-- Witness for C8: running the pipeline with an identity translation on a
two-reaction model yields a reaction table with one row per reaction of the
translated model. -/
theorem C8_export_shape_witness :
    (rxnTableFor
        ⟨[⟨"MNXR1_c", [⟨"m1", "c"⟩], false⟩, ⟨"MNXR2", [⟨"m2", "c"⟩], true⟩],
          [⟨"MNXM5_c", "c"⟩]⟩
        ⟨[⟨"MNXR1_c", [⟨"m1", "c"⟩], false⟩, ⟨"MNXR2", [⟨"m2", "c"⟩], true⟩],
          [⟨"MNXM5_c", "c"⟩]⟩).length =
      (⟨[⟨"MNXR1_c", [⟨"m1", "c"⟩], false⟩, ⟨"MNXR2", [⟨"m2", "c"⟩], true⟩],
          [⟨"MNXM5_c", "c"⟩]⟩ : Model).reactions.length :=
  (C8_export_shape (fun m => Except.ok m)
    ⟨[⟨"MNXR1_c", [⟨"m1", "c"⟩], false⟩, ⟨"MNXR2", [⟨"m2", "c"⟩], true⟩],
      [⟨"MNXM5_c", "c"⟩]⟩
    ⟨[⟨"MNXR1_c", [⟨"m1", "c"⟩], false⟩, ⟨"MNXR2", [⟨"m2", "c"⟩], true⟩],
      [⟨"MNXM5_c", "c"⟩]⟩
    "cv_CHO" "mapping_results" rfl rfl rfl).2.1

/-- Claim C9: when the translation call raises, export_mergem_mapping
propagates the error and leaves no file behind, because both to_csv calls
come after the translation call. -/
theorem C9_translate_failure (translate : Model → Except PyError Model)
    (model : Model) (name out : String) (e : PyError)
    (h : translate model = Except.error e) :
    export_mergem_mapping translate model name out = Except.error e ∧
    emittedFiles (export_mergem_mapping translate model name out) = [] := by
  have hexp : export_mergem_mapping translate model name out = Except.error e := by
    rw [export_mergem_mapping, h]
    rfl
  exact ⟨hexp, by rw [hexp]; rfl⟩

/-- Witness for C9: a translator that always raises makes the run propagate
the error and emit no file. -/
theorem C9_translate_failure_witness :
    export_mergem_mapping (fun _ => Except.error PyError.translationError)
        sampleModelA "au_CHO" "mapping_results" =
      Except.error PyError.translationError ∧
    emittedFiles (export_mergem_mapping
        (fun _ => Except.error PyError.translationError)
        sampleModelA "au_CHO" "mapping_results") = [] :=
  C9_translate_failure (fun _ => Except.error PyError.translationError)
    sampleModelA "au_CHO" "mapping_results" PyError.translationError rfl

/-- Counterexample to claim C6 as stated: in a batch of three models whose
first member fails translation, the cell stops at the failure, so the two
remaining models produce no output artifacts at all. -/
theorem C6_batch_counterexample :
    runBatchCell translateFailOnEmpty
      [(badModel, "m1"), (goodModel1, "m2"), (goodModel2, "m3")] "out" =
      ([], some PyError.translationError) := by
  rfl

/-- Claim C6 amended: an uncaught per-model failure ends the batch cell:
the models before the failing one keep their complete artifacts, and the
failing model together with every model after it produces none. -/
theorem C6_batch_failure (translate : Model → Except PyError Model)
    (pre : List (Model × String)) (m : Model) (name : String)
    (post : List (Model × String)) (out : String) (e : PyError)
    (hpre : ∀ p ∈ pre, (export_mergem_mapping translate p.1 p.2 out).isOk = true)
    (hf : export_mergem_mapping translate m name out = Except.error e) :
    runBatchCell translate (pre ++ (m, name) :: post) out =
      ((pre.map (fun p => emittedFiles
          (export_mergem_mapping translate p.1 p.2 out))).flatten, some e) := by
  induction pre with
  | nil =>
    rw [List.nil_append, runBatchCell, hf]
    simp
  | cons p ps ih =>
    obtain ⟨pm, pname⟩ := p
    have hp := hpre ⟨pm, pname⟩ (by simp)
    obtain ⟨ws, hws⟩ : ∃ ws,
        export_mergem_mapping translate pm pname out = Except.ok ws := by
      cases hx : export_mergem_mapping translate pm pname out with
      | ok ws => exact ⟨ws, rfl⟩
      | error e2 => rw [hx] at hp; simp [Except.isOk, Except.toBool] at hp
    have ihr := ih (fun q hq => hpre q (by simp [hq]))
    rw [List.cons_append, runBatchCell, hws, ihr]
    simp [hws, emittedFiles]

/-- Witness for amended C6: in a two-model batch whose second member fails,
the first model keeps its artifacts and the batch reports the error. -/
theorem C6_batch_failure_witness :
    runBatchCell translateFailOnEmpty
        ([(goodModel1, "n1")] ++ (badModel, "n2") :: []) "out" =
      (([(goodModel1, "n1")].map (fun p => emittedFiles
          (export_mergem_mapping translateFailOnEmpty p.1 p.2 "out"))).flatten,
        some PyError.translationError) :=
  C6_batch_failure translateFailOnEmpty [(goodModel1, "n1")] badModel "n2" []
    "out" PyError.translationError (by decide) rfl
